import Mathlib

/-!
Shallow embedding of the simulation core of the snek game
(`src/logic.rs`): directions, the snake body and its per-tick
advance algorithm, apple placement by rejection sampling, and the
Lost/Running/Paused game state machine.

Machine integers (`u8`) are modelled as `Nat` with explicit `% 256`
where the source relies on wrapping semantics.  The source's
`LinkedList<SnekSeg>` becomes a Lean `List` with the front as head.
The `expect`-panic branches of `Snek::update` become `Option.none`.
The thread-local RNG is modelled as a list of pre-drawn coordinates
consumed by the apple rejection loop; `gen_range(0, n)` guarantees
each draw lies in `[0, n)`, which theorems take as a hypothesis on
the draw list.  Running out of draws models non-termination of the
rejection loop (`Option.none`), which is distinct from a panic.
-/

namespace SnekGame

/-- mirrors enum GameState in logic.rs -/
inductive GameState
  | Lost
  | Running
  | Paused
deriving DecidableEq

/-- mirrors enum Direction in logic.rs -/
inductive Direction
  | Up
  | Down
  | Right
  | Left
deriving DecidableEq

/-- mirrors impl Not for Direction: the opposite heading. -/
def Direction.opposite : Direction → Direction
  | .Up => .Down
  | .Down => .Up
  | .Right => .Left
  | .Left => .Right

/-- mirrors Direction.move_pos: adds or subtracts distance on the relevant
axis with wrapping (mod 256) u8 arithmetic.  distance is i8 cast to u8; the
cast value is taken as a Nat already reduced mod 256 (the source always
passes 1). -/
def Direction.movePos (d : Direction) (distance : Nat) (x y : Nat) : Nat × Nat :=
  match d with
  | .Up => (x, (y + (256 - distance % 256)) % 256)
  | .Down => (x, (y + distance % 256) % 256)
  | .Right => ((x + distance % 256) % 256, y)
  | .Left => ((x + (256 - distance % 256)) % 256, y)

/-- mirrors struct SnekSeg(u8, u8): one body tile. -/
structure SnekSeg where
  x : Nat
  y : Nat
deriving DecidableEq

/-- mirrors SnekSeg.move_dir. -/
def SnekSeg.moveDir (s : SnekSeg) (dist : Nat) (d : Direction) : SnekSeg :=
  let p := d.movePos dist s.x s.y
  ⟨p.1, p.2⟩

/-- mirrors From for SnekSeg. -/
def SnekSeg.fromPair (p : Nat × Nat) : SnekSeg := ⟨p.1, p.2⟩

/-- mirrors struct Snek. segs: front = head, back = tail. -/
structure Snek where
  segs : List SnekSeg
  dir : Direction
  nextDir : Direction
  moveCounter : Nat
  updatesPerMove : Nat
deriving DecidableEq

/-- mirrors Snek::new: one segment at (0,0), heading Right. -/
def Snek.new (updatesPerMove : Nat) : Snek :=
  { segs := [⟨0, 0⟩]
    dir := .Right
    nextDir := .Right
    moveCounter := 0
    updatesPerMove := updatesPerMove }

/-- the two-step board wrap correction applied to the candidate head in
Snek::update lines 309-323: a component equal to 255 (the 8-bit wrap
sentinel for stepping below zero) becomes dimension - 1; then a component
at or past the dimension becomes 0.  u8 subtraction board - 1 is modelled
wrapping, as (board + 255) % 256. -/
def wrapCorrect (m : SnekSeg) (boardSize : Nat × Nat) : SnekSeg :=
  let x1 := if m.x = 255 then (boardSize.1 + 255) % 256 else m.x
  let y1 := if m.y = 255 then (boardSize.2 + 255) % 256 else m.y
  let x2 := if boardSize.1 ≤ x1 then 0 else x1
  let y2 := if boardSize.2 ≤ y1 then 0 else y1
  ⟨x2, y2⟩

/-- the candidate new head a committed move would produce: the current head
moved one tile in the committed heading (which is next_dir at commit time),
then board-wrap corrected.  none when the snake has no body. -/
def Snek.candidate (s : Snek) (boardSize : Nat × Nat) : Option SnekSeg :=
  match s.segs with
  | [] => none
  | head :: _ => some (wrapCorrect (head.moveDir 1 s.nextDir) boardSize)

/-- mirrors Snek::update, returning (new snake, ate_apple, game_lost).
none models the "snek has no body" expect-panic.  move_counter += 1 is u8
wrapping.  The second expect (front after push_front) cannot fail: the
front of moved :: segs is moved. -/
def Snek.update (s : Snek) (applePos : Nat × Nat) (boardSize : Nat × Nat) :
    Option (Snek × Bool × Bool) :=
  let counter := (s.moveCounter + 1) % 256
  if s.updatesPerMove ≤ counter then
    match s.segs with
    | [] => none
    | head :: _ =>
      let dir := s.nextDir
      let moved := wrapCorrect (head.moveDir 1 dir) boardSize
      let lost := s.segs.any (· = moved)
      let segs1 := moved :: s.segs
      let ateApple := moved = SnekSeg.fromPair applePos
      let segs2 := if ateApple then segs1 else segs1.dropLast
      some ({ s with segs := segs2, dir := dir, moveCounter := 0 }, ateApple, lost)
  else
    some ({ s with moveCounter := counter }, false, false)

/-- mirrors Snek::check_collides: does any segment sit at pos. -/
def Snek.checkCollides (s : Snek) (pos : Nat × Nat) : Bool :=
  s.segs.any (· = SnekSeg.fromPair pos)

/-- the keyboard keys the core reacts to; Other stands for every unmapped
key of piston's Key enum. -/
inductive Key
  | W
  | A
  | S
  | D
  | UpArrow
  | DownArrow
  | LeftArrow
  | RightArrow
  | Space
  | R
  | Other
deriving DecidableEq

/-- mirrors TryFrom for Direction: the WASD/arrow key map; none for Err. -/
def directionOfKey : Key → Option Direction
  | .W => some .Up
  | .UpArrow => some .Up
  | .A => some .Left
  | .LeftArrow => some .Left
  | .S => some .Down
  | .DownArrow => some .Down
  | .D => some .Right
  | .RightArrow => some .Right
  | _ => none

/-- mirrors struct Game, without the rendering-only fields (gl, glyphs,
tile_size) and with the thread-local RNG externalised into draw lists. -/
structure Game where
  snek : Snek
  applePos : Option (Nat × Nat)
  gameSize : Nat × Nat
  state : GameState
  updatesPerMove : Nat
deriving DecidableEq

/-- mirrors Game::randomize_apple: sets apple_pos to None and repeatedly
draws a coordinate until one does not collide with the snake, returning
that draw and the unconsumed remainder of the draw list.  none models the
rejection loop never terminating (draws exhausted). -/
def randomizeApple (snek : Snek) (draws : List (Nat × Nat)) :
    Option ((Nat × Nat) × List (Nat × Nat)) :=
  match draws with
  | [] => none
  | p :: rest => if snek.checkCollides p then randomizeApple snek rest else some (p, rest)

/-- the first stage of Game::update while Running: if apple_pos is None,
invoke randomize_apple. -/
def Game.ensureApple (g : Game) (draws : List (Nat × Nat)) :
    Option (Game × List (Nat × Nat)) :=
  match g.applePos with
  | none =>
    match randomizeApple g.snek draws with
    | none => none
    | some (p, rest) => some ({ g with applePos := some p }, rest)
  | some _ => some (g, draws)

/-- mirrors Game::update (one tick): no-op unless Running; otherwise
ensure an apple exists, advance the snake, and interpret the result:
collision sets Lost (taking priority), an eaten apple triggers an
immediate randomize_apple.  none arises only from the model's draw lists
running out inside a rejection loop, or from the panic branches of
Snek::update on an empty body. -/
def Game.update (g : Game) (draws : List (Nat × Nat)) :
    Option (Game × List (Nat × Nat)) :=
  match g.state with
  | .Running =>
    match g.ensureApple draws with
    | none => none
    | some (g1, rest) =>
      match g1.applePos with
      | none => none
      | some ap =>
        match g1.snek.update ap g1.gameSize with
        | none => none
        | some (s2, ateApple, lost) =>
          let g2 := { g1 with snek := s2 }
          if lost then
            some ({ g2 with state := .Lost }, rest)
          else if ateApple then
            match randomizeApple s2 rest with
            | none => none
            | some (p, rest2) => some ({ g2 with applePos := some p }, rest2)
          else
            some (g2, rest)
  | _ => some (g, draws)

/-- mirrors Game::keypress: on a press event, a direction key updates
next_dir unless it is the opposite of the committed heading; Space toggles
Running and Paused; R resets to Paused with a fresh snake and a
freshly-rolled apple.  Release events and unmapped keys do nothing. -/
def Game.keypress (g : Game) (pressed : Bool) (k : Key)
    (draws : List (Nat × Nat)) : Option (Game × List (Nat × Nat)) :=
  if pressed then
    let g1 :=
      match directionOfKey k with
      | some d =>
        if d.opposite ≠ g.snek.dir then
          { g with snek := { g.snek with nextDir := d } }
        else
          g
      | none => g
    match k with
    | .Space =>
      match g1.state with
      | .Running => some ({ g1 with state := .Paused }, draws)
      | .Paused => some ({ g1 with state := .Running }, draws)
      | _ => some (g1, draws)
    | .R =>
      let g2 := { g1 with state := .Paused, snek := Snek.new g1.updatesPerMove }
      match randomizeApple g2.snek draws with
      | none => none
      | some (p, rest) => some ({ g2 with applePos := some p }, rest)
    | _ => some (g1, draws)
  else
    some (g, draws)

/-- iterated Snek::update, discarding the returned flag pair each call;
used to state properties of repeated ticks. -/
def Snek.updateIter (s : Snek) (applePos boardSize : Nat × Nat) : Nat → Option Snek
  | 0 => some s
  | n + 1 =>
    match s.updateIter applePos boardSize n with
    | none => none
    | some s1 =>
      match s1.update applePos boardSize with
      | none => none
      | some (s2, _, _) => some s2

/-- helper: when the move commits (incremented counter reaches
updates_per_move) and the body is head :: t, Snek.update is the explicit
record: committed heading next_dir, counter 0, candidate head pushed,
tail conditionally popped, flags as computed on the pre-move body. -/
theorem Snek.update_commit (s : Snek) (ap b : Nat × Nat) (head : SnekSeg) (t : List SnekSeg)
    (hs : s.segs = head :: t) (hc : s.updatesPerMove ≤ (s.moveCounter + 1) % 256) :
    s.update ap b =
      some ({ s with
                segs := if wrapCorrect (head.moveDir 1 s.nextDir) b = SnekSeg.fromPair ap
                        then wrapCorrect (head.moveDir 1 s.nextDir) b :: s.segs
                        else (wrapCorrect (head.moveDir 1 s.nextDir) b :: s.segs).dropLast,
                dir := s.nextDir,
                moveCounter := 0 },
            decide (wrapCorrect (head.moveDir 1 s.nextDir) b = SnekSeg.fromPair ap),
            s.segs.any (· = wrapCorrect (head.moveDir 1 s.nextDir) b)) := by
  simp only [Snek.update, hs, if_pos hc]

/-- helper: when the incremented counter has not reached updates_per_move,
Snek.update only stores the counter and reports (false, false). -/
theorem Snek.update_skip (s : Snek) (ap b : Nat × Nat)
    (hc : (s.moveCounter + 1) % 256 < s.updatesPerMove) :
    s.update ap b = some ({ s with moveCounter := (s.moveCounter + 1) % 256 }, false, false) := by
  simp only [Snek.update, if_neg (Nat.not_le_of_lt hc)]

/-- helper: the candidate head on a non-empty body. -/
theorem Snek.candidate_cons (s : Snek) (b : Nat × Nat) (head : SnekSeg) (t : List SnekSeg)
    (hs : s.segs = head :: t) :
    s.candidate b = some (wrapCorrect (head.moveDir 1 s.nextDir) b) := by
  simp only [Snek.candidate, hs]

/-- C3: when a move commits, the collided flag is true exactly when the
candidate head lies somewhere in the pre-move body (checked before the
head is pushed and before the tail is popped); in particular a candidate
equal to the current tail tile is flagged. -/
theorem collision_checked_against_premove_body
    (s : Snek) (ap b : Nat × Nat) (cand : SnekSeg) (s' : Snek) (ate lost : Bool)
    (hc : s.updatesPerMove ≤ (s.moveCounter + 1) % 256)
    (hcand : s.candidate b = some cand)
    (hup : s.update ap b = some (s', ate, lost)) :
    (lost = true ↔ cand ∈ s.segs) ∧ (s.segs.getLast? = some cand → lost = true) := by
  match hs : s.segs with
  | [] => simp [Snek.candidate, hs] at hcand
  | head :: t =>
    rw [s.candidate_cons b head t hs] at hcand
    have hcand := Option.some.inj hcand
    rw [s.update_commit ap b head t hs hc, hcand] at hup
    simp only [Option.some.injEq, Prod.mk.injEq] at hup
    obtain ⟨-, -, hlost⟩ := hup
    constructor
    · rw [← hlost, hs, List.any_eq_true]
      constructor
      · rintro ⟨x, hx, he⟩
        exact (of_decide_eq_true he) ▸ hx
      · intro hmem
        exact ⟨cand, hmem, by simp⟩
    · intro htail
      rw [← hlost, List.any_eq_true]
      refine ⟨cand, ?_, by simp⟩
      rw [hs]
      obtain ⟨hne, he⟩ := List.mem_getLast?_eq_getLast (Option.mem_def.mpr htail)
      exact he ▸ List.getLast_mem hne

/-- C4: when a move commits, eating the apple (candidate head equals the
apple position) grows the body by exactly one segment with no tail
removed that call; otherwise the head is pushed, the tail popped, and the
segment count is unchanged. -/
theorem growth_exactly_on_apple
    (s : Snek) (ap b : Nat × Nat) (cand : SnekSeg) (s' : Snek) (ate lost : Bool)
    (hc : s.updatesPerMove ≤ (s.moveCounter + 1) % 256)
    (hcand : s.candidate b = some cand)
    (hup : s.update ap b = some (s', ate, lost)) :
    (ate = true ↔ cand = SnekSeg.fromPair ap) ∧
    (ate = true → s'.segs = cand :: s.segs ∧ s'.segs.length = s.segs.length + 1) ∧
    (ate = false → s'.segs = (cand :: s.segs).dropLast ∧ s'.segs.length = s.segs.length) := by
  match hs : s.segs with
  | [] => simp [Snek.candidate, hs] at hcand
  | head :: t =>
    rw [s.candidate_cons b head t hs] at hcand
    have hcand := Option.some.inj hcand
    rw [s.update_commit ap b head t hs hc, hcand] at hup
    simp only [Option.some.injEq, Prod.mk.injEq] at hup
    obtain ⟨hsnek, hate, -⟩ := hup
    refine ⟨?_, ?_, ?_⟩
    · rw [← hate]; simp
    · intro h
      have hcond : cand = SnekSeg.fromPair ap := by
        rw [← hate] at h; simpa using h
      rw [← hsnek]
      simp [hcond, hs]
    · intro h
      have hcond : ¬ cand = SnekSeg.fromPair ap := by
        rw [← hate] at h; simpa using h
      rw [← hsnek]
      simp [hcond, hs]

/-- witness for C3: a square snake about to move onto its own tail tile
(0,0) has that candidate flagged; applying the theorem at this input
yields tail membership of the candidate. -/
theorem collision_checked_against_premove_body_witness :
    (⟨0, 0⟩ : SnekSeg) ∈ ([⟨0, 1⟩, ⟨1, 1⟩, ⟨1, 0⟩, ⟨0, 0⟩] : List SnekSeg) := by
  have h := collision_checked_against_premove_body
    { segs := [⟨0, 1⟩, ⟨1, 1⟩, ⟨1, 0⟩, ⟨0, 0⟩], dir := .Up, nextDir := .Up,
      moveCounter := 0, updatesPerMove := 1 }
    (5, 5) (10, 10) ⟨0, 0⟩
    { segs := [⟨0, 0⟩, ⟨0, 1⟩, ⟨1, 1⟩, ⟨1, 0⟩], dir := .Up, nextDir := .Up,
      moveCounter := 0, updatesPerMove := 1 }
    false true (by decide) (by decide) (by decide)
  exact h.1.mp rfl

/-- witness for C4: a one-segment snake eating the apple at (1,0) ends
with two segments. -/
theorem growth_exactly_on_apple_witness :
    ([⟨1, 0⟩, ⟨0, 0⟩] : List SnekSeg).length = ([⟨0, 0⟩] : List SnekSeg).length + 1 := by
  have h := growth_exactly_on_apple
    { segs := [⟨0, 0⟩], dir := .Right, nextDir := .Right, moveCounter := 0, updatesPerMove := 1 }
    (1, 0) (10, 10) ⟨1, 0⟩
    { segs := [⟨1, 0⟩, ⟨0, 0⟩], dir := .Right, nextDir := .Right, moveCounter := 0, updatesPerMove := 1 }
    true false (by decide) (by decide) (by decide)
  exact (h.2.1 rfl).2

/-- counterexample to C1: on a board of width 255 and height 1 (both
dimensions fit in 8 bits and are positive), a snake whose head sits at
x = W - 1 = 254 with committed heading Right does not end at x = 0 after
the committed move: the stepped head x = 255 is mistaken for the
below-zero wrap sentinel, corrected to W - 1 = 254, so the head stays at
x = 254 (and is flagged as a self-collision), where the claim demands 0. -/
theorem wraparound_fails_at_width_255 :
    Snek.update
      { segs := [⟨254, 0⟩], dir := .Right, nextDir := .Right, moveCounter := 0, updatesPerMove := 1 }
      (9, 9) (255, 1) =
      some ({ segs := [⟨254, 0⟩], dir := .Right, nextDir := .Right,
              moveCounter := 0, updatesPerMove := 1 }, false, true) ∧
    (254 : Nat) ≠ 0 := by decide

/-- C1 amended: for every board size with 0 < W ≤ 254 and 0 < H ≤ 254,
when a move commits in Snek.update the two-step wrap correction yields
seamless wrap-around at both edges: a head at x = 0 with committed
heading Left ends at x = W - 1, a head at x = W - 1 with committed
heading Right ends at x = 0, and symmetrically for y with Up and Down.
(At W = 255 or H = 255 the high-edge wrap fails; see the
counterexample.) -/
theorem seamless_wraparound_below_255
    (W H : Nat) (hW1 : 0 < W) (hW2 : W ≤ 254) (hH1 : 0 < H) (hH2 : H ≤ 254)
    (s : Snek) (ap : Nat × Nat) (head : SnekSeg) (t : List SnekSeg)
    (hs : s.segs = head :: t)
    (hc : s.updatesPerMove ≤ (s.moveCounter + 1) % 256)
    (s' : Snek) (ate lost : Bool)
    (hup : s.update ap (W, H) = some (s', ate, lost)) :
    (s.nextDir = .Left → head.x = 0 → s'.segs.head?.map SnekSeg.x = some (W - 1)) ∧
    (s.nextDir = .Right → head.x = W - 1 → s'.segs.head?.map SnekSeg.x = some 0) ∧
    (s.nextDir = .Up → head.y = 0 → s'.segs.head?.map SnekSeg.y = some (H - 1)) ∧
    (s.nextDir = .Down → head.y = H - 1 → s'.segs.head?.map SnekSeg.y = some 0) := by
  rw [s.update_commit ap (W, H) head t hs hc] at hup
  simp only [Option.some.injEq, Prod.mk.injEq] at hup
  obtain ⟨hsnek, -, -⟩ := hup
  have hhead : s'.segs.head? = some (wrapCorrect (head.moveDir 1 s.nextDir) (W, H)) := by
    rw [← hsnek]
    by_cases hA : wrapCorrect (head.moveDir 1 s.nextDir) (W, H) = SnekSeg.fromPair ap
    · simp [hA]
    · simp [hA, hs]
  refine ⟨?_, ?_, ?_, ?_⟩ <;> intro hdir hcomp <;>
    rw [hhead] <;>
    simp [hdir, SnekSeg.moveDir, Direction.movePos, wrapCorrect, hcomp] <;>
    (try split_ifs) <;> omega

/-- witness for the amended C1: a head at x = 0 heading Left on a 10 by
10 board ends at x = 9 = W - 1. -/
theorem seamless_wraparound_below_255_witness :
    (([⟨9, 0⟩] : List SnekSeg).head?).map SnekSeg.x = some 9 := by
  have h := seamless_wraparound_below_255 10 10 (by decide) (by decide) (by decide) (by decide)
    { segs := [⟨0, 0⟩], dir := .Left, nextDir := .Left, moveCounter := 0, updatesPerMove := 1 }
    (5, 5) ⟨0, 0⟩ [] rfl (by decide)
    { segs := [⟨9, 0⟩], dir := .Left, nextDir := .Left, moveCounter := 0, updatesPerMove := 1 }
    false false (by decide)
  exact h.1 rfl rfl

/-- helper: opposite is an involution on directions. -/
theorem Direction.opposite_involutive (d : Direction) : d.opposite.opposite = d := by
  cases d <;> rfl

/-- helper: on a press of a key mapped to direction d, keypress only
applies the reversal-guarded pending-heading assignment: d is stored as
next_dir exactly when its opposite differs from the committed heading,
and nothing else of the game changes. -/
theorem Game.keypress_direction_key (g : Game) (k : Key) (d : Direction)
    (draws : List (Nat × Nat)) (hk : directionOfKey k = some d) :
    g.keypress true k draws =
      some (if d.opposite ≠ g.snek.dir
            then { g with snek := { g.snek with nextDir := d } }
            else g, draws) := by
  cases k <;> simp only [directionOfKey, Option.some.injEq, reduceCtorEq] at hk <;>
    subst hk <;> simp [Game.keypress, directionOfKey]

/-- C6: a press of a key mapping to direction d sets pending next_dir to
d exactly when d is not the opposite of the committed heading dir (not
the pending one); a reversal request leaves next_dir unchanged. -/
theorem pending_heading_set_iff_no_reversal
    (g : Game) (k : Key) (d : Direction) (draws : List (Nat × Nat))
    (g' : Game) (rest : List (Nat × Nat))
    (hk : directionOfKey k = some d)
    (hkp : g.keypress true k draws = some (g', rest)) :
    (d ≠ g.snek.dir.opposite → g'.snek.nextDir = d) ∧
    (d = g.snek.dir.opposite → g'.snek.nextDir = g.snek.nextDir) := by
  rw [g.keypress_direction_key k d draws hk] at hkp
  simp only [Option.some.injEq, Prod.mk.injEq] at hkp
  obtain ⟨hg, -⟩ := hkp
  constructor
  · intro hno
    have hcond : d.opposite ≠ g.snek.dir := fun heq =>
      hno (by rw [← heq, Direction.opposite_involutive])
    rw [← hg, if_pos hcond]
  · intro hyes
    have hcond : ¬ d.opposite ≠ g.snek.dir := fun hne =>
      hne (by rw [hyes, Direction.opposite_involutive])
    rw [← hg, if_neg hcond]

/-- witness for C6: with committed heading Right, pressing W (a
non-reversal turn) stores Up as the pending heading. -/
theorem pending_heading_set_iff_no_reversal_witness :
    ({ snek := { segs := [⟨0, 0⟩], dir := .Right, nextDir := .Up,
                 moveCounter := 0, updatesPerMove := 1 },
       applePos := some (1, 0), gameSize := (3, 3), state := .Running,
       updatesPerMove := 1 } : Game).snek.nextDir = Direction.Up := by
  have h := pending_heading_set_iff_no_reversal
    { snek := { segs := [⟨0, 0⟩], dir := .Right, nextDir := .Right,
                moveCounter := 0, updatesPerMove := 1 },
      applePos := some (1, 0), gameSize := (3, 3), state := .Running,
      updatesPerMove := 1 }
    Key.W Direction.Up []
    { snek := { segs := [⟨0, 0⟩], dir := .Right, nextDir := .Up,
                moveCounter := 0, updatesPerMove := 1 },
      applePos := some (1, 0), gameSize := (3, 3), state := .Running,
      updatesPerMove := 1 }
    [] rfl (by decide)
  exact h.1 (by decide)

/-- C10: direction keys are processed in every game state: with no
hypothesis on g.state, a press of a key mapping to a non-reversal
direction d updates the snake's pending next_dir to d. -/
theorem direction_keys_processed_in_every_state
    (g : Game) (k : Key) (d : Direction) (draws : List (Nat × Nat))
    (hk : directionOfKey k = some d)
    (hrev : d.opposite ≠ g.snek.dir) :
    g.keypress true k draws = some ({ g with snek := { g.snek with nextDir := d } }, draws) := by
  rw [g.keypress_direction_key k d draws hk, if_pos hrev]

/-- witness for C10: pressing W while the game is Lost still stores Up as
the pending heading. -/
theorem direction_keys_processed_in_every_state_witness :
    Game.keypress
      { snek := { segs := [⟨0, 0⟩], dir := .Right, nextDir := .Right,
                  moveCounter := 0, updatesPerMove := 1 },
        applePos := none, gameSize := (3, 3), state := .Lost, updatesPerMove := 1 }
      true Key.W [] =
      some ({ snek := { segs := [⟨0, 0⟩], dir := .Right, nextDir := .Up,
                        moveCounter := 0, updatesPerMove := 1 },
              applePos := none, gameSize := (3, 3), state := .Lost,
              updatesPerMove := 1 }, []) :=
  direction_keys_processed_in_every_state
    { snek := { segs := [⟨0, 0⟩], dir := .Right, nextDir := .Right,
                moveCounter := 0, updatesPerMove := 1 },
      applePos := none, gameSize := (3, 3), state := .Lost, updatesPerMove := 1 }
    Key.W Direction.Up [] rfl (by decide)

/-- C7: starting from move_counter = 0, the calls to Snek.update among
the first updates_per_move - 1 calls perform no motion: after j such
calls only move_counter has changed (segments, heading and pending
heading are those of s), and each of those calls returns
(false, false). -/
theorem no_motion_before_updates_per_move (s : Snek) (ap b : Nat × Nat)
    (hc0 : s.moveCounter = 0) (hupm : s.updatesPerMove ≤ 255) :
    (∀ j, j < s.updatesPerMove → s.updateIter ap b j = some { s with moveCounter := j }) ∧
    (∀ j, j + 1 < s.updatesPerMove →
      Snek.update { s with moveCounter := j } ap b =
        some ({ s with moveCounter := j + 1 }, false, false)) := by
  have hstep : ∀ j, j + 1 < s.updatesPerMove →
      Snek.update { s with moveCounter := j } ap b =
        some ({ s with moveCounter := j + 1 }, false, false) := by
    intro j hj
    have h1 : ((j : Nat) + 1) % 256 = j + 1 := Nat.mod_eq_of_lt (by omega)
    have h2 := Snek.update_skip { s with moveCounter := j } ap b (by simpa [h1] using hj)
    simpa [h1] using h2
  refine ⟨?_, hstep⟩
  intro j
  induction j with
  | zero =>
    intro _
    have he : ({ s with moveCounter := 0 } : Snek) = s := by rw [← hc0]
    simp [Snek.updateIter, he]
  | succ n ih =>
    intro hj
    simp [Snek.updateIter, ih (by omega), hstep n (by omega)]

/-- witness for C7: a fresh snake with updates_per_move = 3 is unchanged
apart from its counter after 2 calls. -/
theorem no_motion_before_updates_per_move_witness :
    Snek.updateIter (Snek.new 3) (5, 5) (10, 10) 2 =
      some { segs := [⟨0, 0⟩], dir := .Right, nextDir := .Right,
             moveCounter := 2, updatesPerMove := 3 } :=
  (no_motion_before_updates_per_move (Snek.new 3) (5, 5) (10, 10) rfl (by decide)).1
    2 (by decide)

/-- helper: a position returned by the apple rejection loop never
collides with the snake and was one of the draws. -/
theorem randomizeApple_sound (snek : Snek) :
    ∀ (draws : List (Nat × Nat)) (p : Nat × Nat) (rest : List (Nat × Nat)),
      randomizeApple snek draws = some (p, rest) →
      snek.checkCollides p = false ∧ p ∈ draws := by
  intro draws
  induction draws with
  | nil =>
    intro p rest h
    simp [randomizeApple] at h
  | cons q qs ih =>
    intro p rest h
    rw [randomizeApple] at h
    by_cases hq : snek.checkCollides q
    · rw [if_pos hq] at h
      obtain ⟨h1, h2⟩ := ih p rest h
      exact ⟨h1, List.mem_cons_of_mem q h2⟩
    · rw [if_neg hq] at h
      simp only [Option.some.injEq, Prod.mk.injEq] at h
      obtain ⟨hp, -⟩ := h
      subst hp
      exact ⟨by simpa using hq, List.mem_cons_self q qs⟩

/-- C8: when the apple rejection loop terminates, the returned position
is unoccupied by the snake, and lies in the board whenever every random
draw does (gen_range draws from [0, width) and [0, height)). -/
theorem apple_placement_in_bounds_off_snake
    (snek : Snek) (W H : Nat) (draws : List (Nat × Nat)) (p : Nat × Nat)
    (rest : List (Nat × Nat))
    (hin : ∀ q ∈ draws, q.1 < W ∧ q.2 < H)
    (h : randomizeApple snek draws = some (p, rest)) :
    snek.checkCollides p = false ∧ p.1 < W ∧ p.2 < H := by
  obtain ⟨h1, h2⟩ := randomizeApple_sound snek draws p rest h
  exact ⟨h1, (hin p h2).1, (hin p h2).2⟩

/-- witness for C8: a two-segment snake, a first draw landing on the
body and a second one off it. -/
theorem apple_placement_in_bounds_off_snake_witness :
    Snek.checkCollides
      { segs := [⟨0, 0⟩, ⟨1, 0⟩], dir := .Right, nextDir := .Right,
        moveCounter := 0, updatesPerMove := 1 } (2, 1) = false ∧
    (2 : Nat) < 3 ∧ (1 : Nat) < 3 :=
  apple_placement_in_bounds_off_snake
    { segs := [⟨0, 0⟩, ⟨1, 0⟩], dir := .Right, nextDir := .Right,
      moveCounter := 0, updatesPerMove := 1 }
    3 3 [(0, 0), (2, 1)] (2, 1) [] (by decide) (by decide)

/-- counterexample to C2: a Running tick in which the snake eats the
apple without colliding (Snek.update reports (true, false)) ends with
apple_pos = some (2, 2), not none: Game.update invokes randomize_apple
immediately within the same tick. -/
theorem apple_replaced_same_tick_counterexample :
    (Snek.update
      { segs := [⟨0, 0⟩], dir := .Right, nextDir := .Right, moveCounter := 0, updatesPerMove := 1 }
      (1, 0) (3, 3) =
      some ({ segs := [⟨1, 0⟩, ⟨0, 0⟩], dir := .Right, nextDir := .Right,
              moveCounter := 0, updatesPerMove := 1 }, true, false)) ∧
    (Game.update
      { snek := { segs := [⟨0, 0⟩], dir := .Right, nextDir := .Right,
                  moveCounter := 0, updatesPerMove := 1 },
        applePos := some (1, 0), gameSize := (3, 3), state := .Running, updatesPerMove := 1 }
      [(2, 2)] =
      some ({ snek := { segs := [⟨1, 0⟩, ⟨0, 0⟩], dir := .Right, nextDir := .Right,
                        moveCounter := 0, updatesPerMove := 1 },
              applePos := some (2, 2), gameSize := (3, 3), state := .Running,
              updatesPerMove := 1 }, [])) ∧
    some ((2 : Nat), (2 : Nat)) ≠ (none : Option (Nat × Nat)) := by decide

/-- helper: the explicit value of a Running tick once the apple is
ensured and the snake has advanced. -/
theorem Game.update_running_eq (g : Game) (draws : List (Nat × Nat))
    (g1 : Game) (rest1 : List (Nat × Nat)) (ap1 : Nat × Nat) (s2 : Snek) (ate lost : Bool)
    (hst : g.state = .Running)
    (hE : g.ensureApple draws = some (g1, rest1))
    (hap1 : g1.applePos = some ap1)
    (hu : g1.snek.update ap1 g1.gameSize = some (s2, ate, lost)) :
    g.update draws =
      if lost then some ({ g1 with snek := s2, state := .Lost }, rest1)
      else if ate then
        match randomizeApple s2 rest1 with
        | none => none
        | some (p, rest2) => some ({ g1 with snek := s2, applePos := some p }, rest2)
      else some ({ g1 with snek := s2 }, rest1) := by
  unfold Game.update
  rw [hst]
  simp only [hE, hap1, hu]

/-- C2 amended: whenever Game.update runs in the Running state and the
snake's advance that tick (against the apple in place after the
ensure-apple step, which also covers ticks that begin with
apple_pos = None) reports ate_apple = true and collided = false,
apple_pos at the end of that tick is Some p for a fresh position p the
updated snake does not occupy: the apple is re-placed within the same
tick, not on the next one. -/
theorem apple_replaced_within_same_tick
    (g : Game) (draws : List (Nat × Nat)) (g1 : Game) (rest1 : List (Nat × Nat))
    (ap1 : Nat × Nat) (s2 : Snek) (g' : Game) (rest : List (Nat × Nat))
    (hst : g.state = .Running)
    (hE : g.ensureApple draws = some (g1, rest1))
    (hap1 : g1.applePos = some ap1)
    (hup : g1.snek.update ap1 g1.gameSize = some (s2, true, false))
    (hg : g.update draws = some (g', rest)) :
    ∃ p, g'.applePos = some p ∧ s2.checkCollides p = false := by
  rw [Game.update_running_eq g draws g1 rest1 ap1 s2 true false hst hE hap1 hup] at hg
  simp only [Bool.false_eq_true, if_false, if_true] at hg
  cases hR : randomizeApple s2 rest1 with
  | none =>
    rw [hR] at hg
    exact absurd hg (by simp)
  | some pr =>
    obtain ⟨p, rest2⟩ := pr
    rw [hR] at hg
    simp only [Option.some.injEq, Prod.mk.injEq] at hg
    obtain ⟨h1, -⟩ := hg
    refine ⟨p, ?_, (randomizeApple_sound s2 rest1 p rest2 hR).1⟩
    rw [← h1]

/-- witness for the amended C2: a tick that begins with no apple, where
the ensure-apple step rolls (1,0) straight in front of the head and the
snake eats it that same tick; the tick still ends with a fresh apple at
(2,2), off the grown snake. -/
theorem apple_replaced_within_same_tick_witness :
    ∃ p, ({ snek := { segs := [⟨1, 0⟩, ⟨0, 0⟩], dir := .Right, nextDir := .Right,
                      moveCounter := 0, updatesPerMove := 1 },
            applePos := some (2, 2), gameSize := (3, 3), state := .Running,
            updatesPerMove := 1 } : Game).applePos = some p ∧
      Snek.checkCollides
        { segs := [⟨1, 0⟩, ⟨0, 0⟩], dir := .Right, nextDir := .Right,
          moveCounter := 0, updatesPerMove := 1 } p = false :=
  apple_replaced_within_same_tick
    { snek := { segs := [⟨0, 0⟩], dir := .Right, nextDir := .Right,
                moveCounter := 0, updatesPerMove := 1 },
      applePos := none, gameSize := (3, 3), state := .Running, updatesPerMove := 1 }
    [(1, 0), (2, 2)]
    { snek := { segs := [⟨0, 0⟩], dir := .Right, nextDir := .Right,
                moveCounter := 0, updatesPerMove := 1 },
      applePos := some (1, 0), gameSize := (3, 3), state := .Running, updatesPerMove := 1 }
    [(2, 2)] (1, 0)
    { segs := [⟨1, 0⟩, ⟨0, 0⟩], dir := .Right, nextDir := .Right,
      moveCounter := 0, updatesPerMove := 1 }
    { snek := { segs := [⟨1, 0⟩, ⟨0, 0⟩], dir := .Right, nextDir := .Right,
                moveCounter := 0, updatesPerMove := 1 },
      applePos := some (2, 2), gameSize := (3, 3), state := .Running, updatesPerMove := 1 }
    [] rfl (by decide) rfl (by decide) (by decide)

/-- C5: once state is Lost, a tick leaves the whole game (state and
segments included) unchanged; Space has no effect; every key other than
R leaves the state Lost and the segments unchanged; and the R key resets
to Paused with a fresh single-segment snake at (0,0) and a
freshly-rolled apple. -/
theorem lost_is_terminal
    (g : Game) (draws : List (Nat × Nat)) (hL : g.state = .Lost) :
    (g.update draws = some (g, draws)) ∧
    (g.keypress true Key.Space draws = some (g, draws)) ∧
    (∀ k g' rest, k ≠ Key.R → g.keypress true k draws = some (g', rest) →
      g'.state = .Lost ∧ g'.snek.segs = g.snek.segs) ∧
    (∀ p rest, randomizeApple (Snek.new g.updatesPerMove) draws = some (p, rest) →
      g.keypress true Key.R draws =
        some ({ g with
                  state := .Paused
                  snek := Snek.new g.updatesPerMove
                  applePos := some p }, rest) ∧
      (Snek.new g.updatesPerMove).segs = [⟨0, 0⟩]) := by
  refine ⟨?_, ?_, ?_, ?_⟩
  · unfold Game.update
    rw [hL]
  · unfold Game.keypress
    simp [directionOfKey, hL]
  · intro k g' rest hk hkp
    cases k
    case R => exact absurd rfl hk
    all_goals
      simp only [Game.keypress, directionOfKey, hL, Option.some.injEq, Prod.mk.injEq,
        if_true] at hkp
    all_goals
      try split_ifs at hkp
    all_goals
      obtain ⟨h1, -⟩ := hkp
      rw [← h1]
      exact ⟨by simp [hL], rfl⟩
  · intro p rest hR
    refine ⟨?_, rfl⟩
    simp only [Game.keypress, directionOfKey, if_true]
    rw [hR]

/-- witness for C5: a concrete Lost game is untouched by a tick. -/
theorem lost_is_terminal_witness :
    Game.update
      { snek := { segs := [⟨0, 0⟩], dir := .Right, nextDir := .Right,
                  moveCounter := 0, updatesPerMove := 1 },
        applePos := some (1, 1), gameSize := (3, 3), state := .Lost, updatesPerMove := 1 }
      [(2, 2)] =
      some ({ snek := { segs := [⟨0, 0⟩], dir := .Right, nextDir := .Right,
                        moveCounter := 0, updatesPerMove := 1 },
              applePos := some (1, 1), gameSize := (3, 3), state := .Lost,
              updatesPerMove := 1 }, [(2, 2)]) :=
  (lost_is_terminal
    { snek := { segs := [⟨0, 0⟩], dir := .Right, nextDir := .Right,
                moveCounter := 0, updatesPerMove := 1 },
      applePos := some (1, 1), gameSize := (3, 3), state := .Lost, updatesPerMove := 1 }
    [(2, 2)] rfl).1

/-- helper: Snek.update never hits its empty-body panic branch on a
non-empty body, and the body stays non-empty. -/
theorem Snek.update_of_ne_nil (s : Snek) (ap b : Nat × Nat) (hne : s.segs ≠ []) :
    ∃ s' ate lost, s.update ap b = some (s', ate, lost) ∧ s'.segs ≠ [] := by
  match hs : s.segs with
  | [] => exact absurd hs hne
  | head :: t =>
    by_cases hc : s.updatesPerMove ≤ (s.moveCounter + 1) % 256
    · refine ⟨_, _, _, s.update_commit ap b head t hs hc, ?_⟩
      dsimp only
      split_ifs with hA
      · simp
      · intro hnil
        have hlen := congrArg List.length hnil
        simp [hs] at hlen
    · refine ⟨_, _, _, s.update_skip ap b (by omega), ?_⟩
      simpa using hne

/-- helper: a successful ensure-apple step leaves an apple in place and
touches nothing else of the game. -/
theorem Game.ensureApple_spec (g : Game) (draws : List (Nat × Nat)) (g1 : Game)
    (rest : List (Nat × Nat)) (h : g.ensureApple draws = some (g1, rest)) :
    (∃ p, g1.applePos = some p) ∧ g1.snek = g.snek ∧ g1.gameSize = g.gameSize ∧
      g1.state = g.state := by
  unfold Game.ensureApple at h
  cases hap : g.applePos with
  | none =>
    rw [hap] at h
    cases hR : randomizeApple g.snek draws with
    | none => rw [hR] at h; exact absurd h (by simp)
    | some pr =>
      obtain ⟨p, r⟩ := pr
      rw [hR] at h
      simp only [Option.some.injEq, Prod.mk.injEq] at h
      obtain ⟨h1, -⟩ := h
      rw [← h1]
      exact ⟨⟨p, rfl⟩, rfl, rfl, rfl⟩
  | some p =>
    rw [hap] at h
    simp only [Option.some.injEq, Prod.mk.injEq] at h
    obtain ⟨h1, -⟩ := h
    rw [← h1]
    exact ⟨⟨p, hap⟩, rfl, rfl, rfl⟩

/-- C9: the snake's segment list is non-empty at construction (and hence
after the reset, which builds the same value); a non-empty body makes
Snek.update total (its empty-body panic branches are unreachable) and
keeps the body non-empty; Game.update preserves the non-empty body; and
any failure of a tick in the model is a non-terminating apple rejection
loop (draws exhausted), never a panic branch. -/
theorem nonempty_body_no_panic
    (upm : Nat) (s : Snek) (ap b : Nat × Nat) (g : Game) (draws : List (Nat × Nat)) :
    (Snek.new upm).segs = [⟨0, 0⟩] ∧
    (s.segs ≠ [] → ∃ s' ate lost, s.update ap b = some (s', ate, lost) ∧ s'.segs ≠ []) ∧
    (g.snek.segs ≠ [] → ∀ g' rest, g.update draws = some (g', rest) → g'.snek.segs ≠ []) ∧
    (g.snek.segs ≠ [] → g.update draws = none →
      (g.applePos = none ∧ randomizeApple g.snek draws = none) ∨
      (∃ g1 rest1 ap1 s2, g.ensureApple draws = some (g1, rest1) ∧
        g1.applePos = some ap1 ∧
        g1.snek.update ap1 g1.gameSize = some (s2, true, false) ∧
        randomizeApple s2 rest1 = none)) := by
  refine ⟨rfl, Snek.update_of_ne_nil s ap b, ?_, ?_⟩
  · intro hne g' rest hg
    cases hst : g.state with
    | Running =>
      cases hE : g.ensureApple draws with
      | none =>
        unfold Game.update at hg
        rw [hst] at hg
        simp only [hE] at hg
        exact Option.noConfusion hg
      | some pair =>
        obtain ⟨g1, rest1⟩ := pair
        obtain ⟨⟨ap1, hap1⟩, hsnek1, -, -⟩ := Game.ensureApple_spec g draws g1 rest1 hE
        obtain ⟨s2, ate, lost, hu, hne2⟩ :=
          Snek.update_of_ne_nil g1.snek ap1 g1.gameSize (by rw [hsnek1]; exact hne)
        rw [Game.update_running_eq g draws g1 rest1 ap1 s2 ate lost hst hE hap1 hu] at hg
        split_ifs at hg
        · simp only [Option.some.injEq, Prod.mk.injEq] at hg
          obtain ⟨h1, -⟩ := hg
          rw [← h1]
          exact hne2
        · cases hRA : randomizeApple s2 rest1 with
          | none =>
            rw [hRA] at hg
            exact Option.noConfusion hg
          | some pr =>
            obtain ⟨p, r2⟩ := pr
            rw [hRA] at hg
            simp only [Option.some.injEq, Prod.mk.injEq] at hg
            obtain ⟨h1, -⟩ := hg
            rw [← h1]
            exact hne2
        · simp only [Option.some.injEq, Prod.mk.injEq] at hg
          obtain ⟨h1, -⟩ := hg
          rw [← h1]
          exact hne2
    | Lost =>
      unfold Game.update at hg
      rw [hst] at hg
      simp only [Option.some.injEq, Prod.mk.injEq] at hg
      obtain ⟨h1, -⟩ := hg
      rw [← h1]
      exact hne
    | Paused =>
      unfold Game.update at hg
      rw [hst] at hg
      simp only [Option.some.injEq, Prod.mk.injEq] at hg
      obtain ⟨h1, -⟩ := hg
      rw [← h1]
      exact hne
  · intro hne hg
    cases hst : g.state with
    | Running =>
      cases hE : g.ensureApple draws with
      | none =>
        left
        unfold Game.ensureApple at hE
        cases hap : g.applePos with
        | none =>
          rw [hap] at hE
          cases hRA : randomizeApple g.snek draws with
          | none => exact ⟨rfl, rfl⟩
          | some pr => rw [hRA] at hE; exact absurd hE (by simp)
        | some p => rw [hap] at hE; exact absurd hE (by simp)
      | some pair =>
        obtain ⟨g1, rest1⟩ := pair
        obtain ⟨⟨ap1, hap1⟩, hsnek1, -, -⟩ := Game.ensureApple_spec g draws g1 rest1 hE
        obtain ⟨s2, ate, lost, hu, hne2⟩ :=
          Snek.update_of_ne_nil g1.snek ap1 g1.gameSize (by rw [hsnek1]; exact hne)
        rw [Game.update_running_eq g draws g1 rest1 ap1 s2 ate lost hst hE hap1 hu] at hg
        split_ifs at hg with h1 h2
        · cases hRA : randomizeApple s2 rest1 with
          | none =>
            right
            have hlost : lost = false := by simpa using h1
            rw [h2, hlost] at hu
            exact ⟨g1, rest1, ap1, s2, rfl, hap1, hu, hRA⟩
          | some pr =>
            obtain ⟨p, r2⟩ := pr
            rw [hRA] at hg
            exact absurd hg (by simp)
    | Lost =>
      unfold Game.update at hg
      rw [hst] at hg
      exact absurd hg (by simp)
    | Paused =>
      unfold Game.update at hg
      rw [hst] at hg
      exact absurd hg (by simp)

/-- witness for C9: a fresh snake advances without hitting a panic
branch and keeps a non-empty body. -/
theorem nonempty_body_no_panic_witness :
    ∃ s' ate lost, Snek.update (Snek.new 1) (5, 5) (10, 10) = some (s', ate, lost) ∧
      s'.segs ≠ [] :=
  (nonempty_body_no_panic 1 (Snek.new 1) (5, 5) (10, 10)
    { snek := Snek.new 1, applePos := none, gameSize := (10, 10), state := .Paused,
      updatesPerMove := 1 } []).2.1 (by decide)

end SnekGame
